import Mathlib

/-!
Shallow embedding of the Turion local tunnel client
(src/tools/libturion_source/src/lib.rs and api.rs).

Machine integers are modelled as Nat (unsigned) and Int (signed), with
explicit reductions modulo 2^32 where the Rust code casts.  Fallible
operations return outcome types with an explicit constructor for a Rust
panic (failed assert, failed unwrap, out-of-bounds slice).  Network I/O
performed by the rustls/mio transport is modelled by an explicit oracle
(NetInput) listing the results the TLS reader would return.
-/

namespace Turion

/-- Result kind of one io::Read call on the TLS reader: a chunk of
plaintext bytes (empty list = clean EOF, i.e. Ok(0)), or an io error. -/
inductive IoErrKind where
  | wouldBlock
  | interrupted
  | unexpectedEof
  | other
deriving DecidableEq, Repr

/-- One planned result of a reader().read call. -/
inductive RRes where
  | bytes (l : List Nat)
  | rerr (k : IoErrKind)
deriving DecidableEq, Repr

/-- Oracle for the network interactions of one entry-point invocation:
result of write_all, result of the poll/complete_io phase of
process_events, and the successive results of reader().read calls.
An exhausted read list means no plaintext is buffered, which the
non-blocking rustls reader reports as WouldBlock. -/
structure NetInput where
  writeRes : Except IoErrKind Unit
  phase : Except IoErrKind Unit
  reads : List RRes
deriving Repr

/-- UTF-8 encoding of one character (str::as_bytes works on UTF-8). -/
def utf8EncodeChar (c : Char) : List Nat :=
  let n := c.toNat
  if n < 0x80 then [n]
  else if n < 0x800 then [0xC0 + n / 64, 0x80 + n % 64]
  else if n < 0x10000 then [0xE0 + n / 4096, 0x80 + n / 64 % 64, 0x80 + n % 64]
  else [0xF0 + n / 262144, 0x80 + n / 4096 % 64, 0x80 + n / 64 % 64, 0x80 + n % 64]

/-- Byte content of a Rust string (str::as_bytes). -/
def strBytes (s : List Char) : List Nat :=
  (s.map utf8EncodeChar).flatten

/-- Interpret a u32 value as i32 (two's complement), as done by
reinterpreting struct fields. -/
def i32ofU32 (n : Nat) : Int :=
  if n % 4294967296 < 2147483648 then ((n % 4294967296 : Nat) : Int)
  else ((n % 4294967296 : Nat) : Int) - 4294967296

/-- Cast a usize length to i32 (data.len() as i32). -/
def i32ofNat (n : Nat) : Int := i32ofU32 n

/-- Little-endian byte serialization of one u32 word (the packet struct
is a repr(C) struct read back on a little-endian platform). -/
def u32le (w : Nat) : List Nat :=
  [w % 256, w / 256 % 256, w / 65536 % 256, w / 16777216 % 256]

/-- str::split with a one-character separator: Rust split yields one
(possibly empty) piece even for the empty string, and empty pieces
around consecutive separators. -/
def splitOnChar (sep : Char) : List Char → List (List Char)
  | [] => [[]]
  | c :: rest =>
    let r := splitOnChar sep rest
    if c = sep then [] :: r
    else
      match r with
      | s :: ss => (c :: s) :: ss
      | [] => [[c]]

/-- Byte index of the first occurrence of the two-character pattern ".?"
(str::find of the hostname delimiter); none when absent. -/
def findDotQ : List Char → Option Nat
  | [] => none
  | c :: rest =>
    if c = '.' ∧ rest.headD ' ' = '?' then some 0
    else (findDotQ rest).map (· + 1)

/-- u16::from_str as used by val.parse::<u16>(): optional leading plus
sign, then one or more ASCII digits, rejecting the empty digit string
and values above 65535. -/
def parseU16 (s : List Char) : Option Nat :=
  let digits := match s with
    | '+' :: rest => rest
    | _ => s
  if digits = [] then none
  else if digits.all (fun c => c.isDigit) then
    let n := digits.foldl (fun acc c => acc * 10 + (c.toNat - 48)) 0
    if n ≤ 65535 then some n else none
  else none

/-- Typed record produced by LocalSettings::from_url. -/
structure LocalSettings where
  hostname : List Char
  port : Nat
  username : List Char
  password : List Char
  serial : Option (List Char)
  net_ver : Option (List Char)
  dev_ver : Option (List Char)
  cli_id : Option (List Char)
  cli_ver : Option (List Char)
deriving DecidableEq, Repr

/-- The fixed scheme prefix checked by from_url. -/
def SCHEMA_START : List Char := "bambu:///local/".toList

/-- Outcome of LocalSettings::from_url: a parsed record, a returned
error (bail or the propagated u16 parse error), or a process panic
(failed Option::unwrap). -/
inductive FromUrlOutcome where
  | parsed (s : LocalSettings)
  | failed (msg : String)
  | panicked
deriving DecidableEq, Repr

/-- Key of one key=value query segment: the part before the first
equals sign (parts.next() on str::split, always present). -/
def segKey (seg : List Char) : List Char :=
  (splitOnChar '=' seg).headD []

/-- Value of one query segment: the part between the first and second
equals signs (the second parts.next(), absent when the segment has no
equals sign, in which case the code unwraps None and panics). -/
def segVal (seg : List Char) : Option (List Char) :=
  (splitOnChar '=' seg).get? 1

/-- A query segment does not carry an unparsable port value: either it
has no value at all, or its key is not port, or its port value parses
as a u16.  Segments violating this make from_url return the propagated
parse error before any later segment is examined. -/
def segPortOk (seg : List Char) : Bool :=
  match segVal seg with
  | none => true
  | some v => if segKey seg = "port".toList then (parseU16 v).isSome else true

/-- Accumulator of the query loop in from_url (the eight local
Option variables). -/
structure QueryAcc where
  username : Option (List Char)
  password : Option (List Char)
  port : Option Nat
  serial : Option (List Char)
  net_ver : Option (List Char)
  dev_ver : Option (List Char)
  cli_id : Option (List Char)
  cli_ver : Option (List Char)
deriving DecidableEq, Repr

/-- The empty accumulator at loop entry. -/
def QueryAcc.init : QueryAcc := ⟨none, none, none, none, none, none, none, none⟩

/-- Result of processing one query segment. -/
inductive SegStep where
  | updated (acc : QueryAcc)
  | portErr
  | valPanic
deriving DecidableEq, Repr

/-- One iteration of the query loop: split the segment at equals signs,
panic when there is no value, dispatch on the key (unknown keys are
only logged), propagate a u16 parse failure of the port value. -/
def procSeg (acc : QueryAcc) (seg : List Char) : SegStep :=
  match segVal seg with
  | none => .valPanic
  | some v =>
    if segKey seg = "user".toList then .updated { acc with username := some v }
    else if segKey seg = "passwd".toList then .updated { acc with password := some v }
    else if segKey seg = "device".toList then .updated { acc with serial := some v }
    else if segKey seg = "net_ver".toList then .updated { acc with net_ver := some v }
    else if segKey seg = "dev_ver".toList then .updated { acc with dev_ver := some v }
    else if segKey seg = "cli_id".toList then .updated { acc with cli_id := some v }
    else if segKey seg = "cli_ver".toList then .updated { acc with cli_ver := some v }
    else if segKey seg = "port".toList then
      match parseU16 v with
      | none => .portErr
      | some p => .updated { acc with port := some p }
    else .updated acc

/-- The query loop followed by the three mandatory unwraps of
username, password and port (lines 85 to 87 of lib.rs): a missing
mandatory key is a panic, not a returned error. -/
def procSegs (hostname : List Char) (acc : QueryAcc) : List (List Char) → FromUrlOutcome
  | [] =>
    match acc.username, acc.password, acc.port with
    | some u, some p, some pt =>
      .parsed ⟨hostname, pt, u, p, acc.serial, acc.net_ver, acc.dev_ver, acc.cli_id, acc.cli_ver⟩
    | _, _, _ => .panicked
  | seg :: rest =>
    match procSeg acc seg with
    | .valPanic => .panicked
    | .portErr => .failed "invalid port"
    | .updated acc2 => procSegs hostname acc2 rest

/-- LocalSettings::from_url: scheme check, hostname up to the first
".?" delimiter, then the ampersand-separated query. -/
def LocalSettings.from_url (url : List Char) : FromUrlOutcome :=
  if ¬ SCHEMA_START.isPrefixOf url then .failed "Invalid schema"
  else
    let part := url.drop SCHEMA_START.length
    match findDotQ part with
    | none => .failed "Invalid url"
    | some ipEnd =>
      let hostname := part.take ipEnd
      let rawQuery := part.drop (ipEnd + 2)
      procSegs hostname QueryAcc.init (splitOnChar '&' rawQuery)

/-- CameraCmdFrameHeader: 16 bytes reinterpreted as u32 frame_len,
i32 itrack, i32 flags, u32 padding, little-endian native layout. -/
structure CameraCmdFrameHeader where
  frame_len : Nat
  itrack : Int
  flags : Int
  padding : Nat
deriving DecidableEq, Repr

/-- A u32 from four little-endian bytes. -/
def u32ofBytes (b0 b1 b2 b3 : Nat) : Nat :=
  b0 % 256 + 256 * (b1 % 256) + 65536 * (b2 % 256) + 16777216 * (b3 % 256)

/-- From<[u8; 16]> for CameraCmdFrameHeader: raw reinterpretation of
the 16-byte window on a little-endian platform; no validation of
frame_len is performed. -/
def headerFrom (raw : List Nat) : CameraCmdFrameHeader :=
  { frame_len := u32ofBytes (raw.getD 0 0) (raw.getD 1 0) (raw.getD 2 0) (raw.getD 3 0)
    itrack := i32ofU32 (u32ofBytes (raw.getD 4 0) (raw.getD 5 0) (raw.getD 6 0) (raw.getD 7 0))
    flags := i32ofU32 (u32ofBytes (raw.getD 8 0) (raw.getD 9 0) (raw.getD 10 0) (raw.getD 11 0))
    padding := u32ofBytes (raw.getD 12 0) (raw.getD 13 0) (raw.getD 14 0) (raw.getD 15 0) }

/-- CameraCmdPacket: four u32 command words, a 32-byte username field
and a 32-byte password field. -/
structure CameraCmdPacket where
  cmd : List Nat
  user : List Nat
  pass : List Nat
deriving DecidableEq, Repr

/-- Outcome of CameraCmdPacket::new: the packet, or a panic when a
credential slice bound exceeds the 32-byte field. -/
inductive PacketOut where
  | built (p : CameraCmdPacket)
  | panicked
deriving DecidableEq, Repr

/-- CameraCmdPacket::new: zeroed packet, cmd word 1 set to req_type
cast to u32, the 0x40 start bit ORed into cmd word 0 when is_start,
then the credential bytes copied into the prefix of each field.
res.user[..user.len()] is an out-of-bounds slice (a panic) when the
credential is longer than 32 bytes. -/
def CameraCmdPacket.new (req_type : Int) (user pass : List Nat) (is_start : Bool) : PacketOut :=
  if user.length > 32 ∨ pass.length > 32 then .panicked
  else
    .built
      { cmd := [if is_start then 0x40 else 0, (req_type % 4294967296).toNat, 0, 0]
        user := user ++ List.replicate (32 - user.length) 0
        pass := pass ++ List.replicate (32 - pass.length) 0 }

/-- CameraCmdPacket::as_bytes: the raw bytes of the repr(C) struct,
size_of::<CameraCmdPacket>() bytes on a little-endian platform. -/
def CameraCmdPacket.as_bytes (p : CameraCmdPacket) : List Nat :=
  (p.cmd.map u32le).flatten ++ p.user ++ p.pass

/-- Byte length of the packet an encoding attempt produced (0 when the
encoding panicked). -/
def packetOutLen : PacketOut → Nat
  | .built p => p.as_bytes.length
  | .panicked => 0

/-- Command words of an encoding attempt. -/
def packetOutCmd : PacketOut → List Nat
  | .built p => p.cmd
  | .panicked => []

/-- Username field of an encoding attempt. -/
def packetOutUser : PacketOut → List Nat
  | .built p => p.user
  | .panicked => []

/-- A Rust Vec of bytes: its contents together with the capacity of its
backing allocation. -/
structure RVec where
  data : List Nat
  cap : Nat
deriving DecidableEq, Repr

/-- Capacity of a Vec of bytes after reserve(additional), following
std RawVec::reserve for element size 1: no change when the spare
capacity already suffices, otherwise amortized growth to the maximum of
twice the old capacity and the required capacity, but never below the
minimum non-zero capacity of 8. -/
def vecReserveCap (len cap additional : Nat) : Nat :=
  if additional ≤ cap - len then cap
  else max 8 (max (cap * 2) (len + additional))

/-- Vec::reserve. -/
def RVec.reserve (v : RVec) (additional : Nat) : RVec :=
  { v with cap := vecReserveCap v.data.length v.cap additional }

/-- Vec::clone (slice::to_vec): a fresh allocation of exactly the
length of the contents. -/
def RVec.clone (v : RVec) : RVec :=
  { data := v.data, cap := v.data.length }

/-- Vec::extend_from_slice: append the bytes, growing the allocation
with the same amortized policy as reserve when they do not fit. -/
def RVec.extendFromSlice (v : RVec) (chunk : List Nat) : RVec :=
  { data := v.data ++ chunk, cap := vecReserveCap v.data.length v.cap chunk.length }

/-- BambuSample: the out-sample struct handed across the C boundary.
buffer is the byte content behind the raw pointer and bufCap the
capacity of the allocation backing it (the ghost state needed to talk
about the release contract). -/
structure BambuSample where
  itrack : Int
  size : Int
  flags : Int
  buffer : List Nat
  bufCap : Nat
  decode_time : Nat
deriving DecidableEq, Repr

/-- The zero-initialized sample written on the very first read_sample
invocation (null buffer, all fields zero). -/
def zeroSample : BambuSample := ⟨0, 0, 0, [], 0, 0⟩

/-- BambuSample::destroy_buffer: an early return when size is not
positive, otherwise the Vec is rebuilt from the raw parts and dropped
and size is reset to 0.  The Bool records whether an allocation was
released by this call. -/
def BambuSample.destroy_buffer (s : BambuSample) : BambuSample × Bool :=
  if s.size ≤ 0 then (s, false)
  else ({ s with size := 0 }, true)

/-- BambuSample::set_buffer: copy track id and flags from the header,
assert that the length of the handed-over Vec equals its capacity
(none models the assert failure, a panic), move its pointer and length
into the sample, leave decode_time unset, and forget the Vec. -/
def BambuSample.set_buffer (_self : BambuSample) (h : CameraCmdFrameHeader) (data : RVec) :
    Option BambuSample :=
  if data.data.length = data.cap then
    some
      { itrack := h.itrack
        flags := h.flags
        buffer := data.data
        bufCap := data.cap
        size := i32ofNat data.data.length
        decode_time := 0 }
  else none

/-- std io::Read::read_exact on the TLS reader, filling a buffer of
need bytes from the successive read results: Interrupted reads are
retried, any other error is returned, a zero-byte read (clean EOF)
before the buffer is full yields UnexpectedEof, and each read returns
at most the still-needed byte count.  Returns the bytes obtained and
the unconsumed rest of the oracle. -/
def readExactAux (acc : List Nat) (need : Nat) (rs : List RRes) :
    Except IoErrKind (List Nat × List RRes) :=
  if need = 0 then .ok (acc, rs)
  else
    match rs with
    | [] => .error .wouldBlock
    | .rerr .interrupted :: rest => readExactAux acc need rest
    | .rerr k :: _ => .error k
    | .bytes l :: rest =>
      let chunk := l.take need
      if chunk.length = 0 then .error .unexpectedEof
      else readExactAux (acc ++ chunk) (need - chunk.length) rest

/-- Result of the chunked body-read loop: the loop exited (with the
grown Vec and the remaining byte count, zero unless a zero-byte read
ended it early), or a read call returned an error which propagates with
the mutations made so far. -/
inductive LoopOut where
  | finished (v : RVec) (remaining : Nat)
  | ioFail (k : IoErrKind) (v : RVec) (remaining : Nat)
deriving DecidableEq, Repr

/-- The while loop of the ReceivingSample branch of read_sample: while
bytes remain, read into a stack buffer of at most 4096 bytes (capped
further by the remaining count), break on a zero-byte read, otherwise
extend the pending Vec and decrement the remaining count. -/
def readLoop : Nat → RVec → List RRes → LoopOut
  | 0, v, _ => .finished v 0
  | r + 1, v, [] => .ioFail .wouldBlock v (r + 1)
  | r + 1, v, .rerr k :: _ => .ioFail k v (r + 1)
  | r + 1, v, .bytes l :: rs =>
    let chunk := l.take (min (r + 1) 4096)
    if chunk.length = 0 then .finished v (r + 1)
    else readLoop (r + 1 - chunk.length) (v.extendFromSlice chunk) rs

/-- LocalTunnelState: the reception state machine. -/
inductive LocalTunnelState where
  | Initial
  | ProcessStream
  | ReceivingSample (header : CameraCmdFrameHeader) (data : RVec) (remaining_bytes : Nat)
deriving DecidableEq, Repr

/-- LocalTunnel: settings, presence of the TLS connection (whose I/O
behaviour is supplied by the NetInput oracle), the stored request type,
the optional state, and the first-read flag. -/
structure LocalTunnel where
  settings : LocalSettings
  conn_opt : Bool
  req_type_opt : Option Int
  state_opt : Option LocalTunnelState
  own_sample_buffer : Bool
deriving DecidableEq, Repr

/-- Caller-visible result classification of one entry point call.
tryAgain m models bail!(Error::new(ErrorKind::Interrupted, m)); errMsg
models a LocalTunnelError; ioFail a propagated io error; panicked a
Rust panic (failed assert or unwrap). -/
inductive RSCode where
  | success
  | errMsg (m : String)
  | ioFail (k : IoErrKind)
  | tryAgain (m : String)
  | panicked
deriving DecidableEq, Repr

/-- The shim in api.rs maps an error to the distinguished would-block
return code exactly when it downcasts to an io::Error of kind
WouldBlock or Interrupted; those are the transient try-again results. -/
def RSCode.isTransient : RSCode → Bool
  | .tryAgain _ => true
  | .ioFail .wouldBlock => true
  | .ioFail .interrupted => true
  | _ => false

/-- State visible after a read_sample call: result code, the tunnel,
and the out-sample struct. -/
structure RSResult where
  code : RSCode
  tunnel : LocalTunnel
  sample : BambuSample
deriving DecidableEq, Repr

/-- Network actions performed by start and close. -/
inductive NetAction where
  | write (bytes : List Nat)
  | drive
deriving DecidableEq, Repr

/-- State visible after a start or close call: result code, the
tunnel, and the network actions attempted (in order). -/
structure CtlResult where
  code : RSCode
  tunnel : LocalTunnel
  actions : List NetAction
deriving DecidableEq, Repr

/-- LocalTunnel::start: sequencing checks before any I/O, then encode
the control packet with the start flag, write it, and drive the
transport once in blocking mode. -/
def LocalTunnel.start (t : LocalTunnel) (req_type : Int) (net : NetInput) : CtlResult :=
  if t.conn_opt = false then ⟨.errMsg "stream not opened", t, []⟩
  else
    match t.state_opt with
    | none | some .Initial =>
      match CameraCmdPacket.new req_type (strBytes t.settings.username)
          (strBytes t.settings.password) true with
      | .panicked => ⟨.panicked, t, []⟩
      | .built pkt =>
        match net.writeRes with
        | .error k => ⟨.ioFail k, t, [.write pkt.as_bytes]⟩
        | .ok _ =>
          match net.phase with
          | .error k => ⟨.ioFail k, t, [.write pkt.as_bytes, .drive]⟩
          | .ok _ =>
            ⟨.success,
              { t with state_opt := some .ProcessStream, req_type_opt := some req_type },
              [.write pkt.as_bytes, .drive]⟩
    | some _ => ⟨.errMsg "stream already started", t, []⟩

/-- LocalTunnel::close: sequencing checks before any I/O (including the
unwrap of the stored request type, a panic when absent), then encode
the control packet without the start flag, write it, and drive the
transport once in blocking mode. -/
def LocalTunnel.close (t : LocalTunnel) (net : NetInput) : CtlResult :=
  if t.conn_opt = false then ⟨.errMsg "stream not opened", t, []⟩
  else
    match t.state_opt with
    | none | some .Initial => ⟨.errMsg "stream not started", t, []⟩
    | some _ =>
      match t.req_type_opt with
      | none => ⟨.panicked, t, []⟩
      | some rt =>
        match CameraCmdPacket.new rt (strBytes t.settings.username)
            (strBytes t.settings.password) false with
        | .panicked => ⟨.panicked, t, []⟩
        | .built pkt =>
          match net.writeRes with
          | .error k => ⟨.ioFail k, t, [.write pkt.as_bytes]⟩
          | .ok _ =>
            match net.phase with
            | .error k => ⟨.ioFail k, t, [.write pkt.as_bytes, .drive]⟩
            | .ok _ =>
              ⟨.success, { t with state_opt := some .Initial },
                [.write pkt.as_bytes, .drive]⟩

/-- LocalTunnel::read_sample: connection check; zero-initialization of
the out-sample on the very first invocation; release of the buffer the
out-sample currently references; then dispatch on the state.
ProcessStream ticks the transport once non-blockingly and tries to read
the full 16-byte header; on success it decodes the header, reserves
frame_len bytes in a fresh Vec, moves to ReceivingSample with the
remaining count set to the capacity of that Vec, and reports the
transient Interrupted condition.  ReceivingSample with remaining zero
hands the pending data (cloned) to the out-sample and returns to
ProcessStream with success.  ReceivingSample with bytes remaining runs
the chunked read loop, asserts that nothing remains afterwards, and
reports the transient Interrupted condition. -/
def LocalTunnel.read_sample (t : LocalTunnel) (sample : BambuSample) (net : NetInput) :
    RSResult :=
  if t.conn_opt = false then ⟨.errMsg "stream not opened", t, sample⟩
  else
    let s0 := if t.own_sample_buffer = false then zeroSample else sample
    let t1 := { t with own_sample_buffer := true }
    let s1 := (s0.destroy_buffer).1
    match t1.state_opt with
    | none | some .Initial => ⟨.errMsg "stream not started", t1, s1⟩
    | some .ProcessStream =>
      match net.phase with
      | .error k => ⟨.ioFail k, t1, s1⟩
      | .ok _ =>
        match readExactAux [] 16 net.reads with
        | .error k => ⟨.ioFail k, t1, s1⟩
        | .ok (raw, _) =>
          let header := headerFrom raw
          let pending := (RVec.mk [] 0).reserve header.frame_len
          ⟨.tryAgain "next state (receiving)",
            { t1 with state_opt := some (.ReceivingSample header pending pending.cap) },
            s1⟩
    | some (.ReceivingSample header v remaining) =>
      match remaining with
      | 0 =>
        match s1.set_buffer header v.clone with
        | none => ⟨.panicked, t1, s1⟩
        | some s2 => ⟨.success, { t1 with state_opt := some .ProcessStream }, s2⟩
      | r + 1 =>
        match net.phase with
        | .error k => ⟨.ioFail k, t1, s1⟩
        | .ok _ =>
          match readLoop (r + 1) v net.reads with
          | .ioFail k v' r' =>
            ⟨.ioFail k, { t1 with state_opt := some (.ReceivingSample header v' r') }, s1⟩
          | .finished v' r' =>
            if r' = 0 then
              ⟨.tryAgain "next state (finishing)",
                { t1 with state_opt := some (.ReceivingSample header v' 0) }, s1⟩
            else
              ⟨.panicked,
                { t1 with state_opt := some (.ReceivingSample header v' r') }, s1⟩

/-- A concrete settings value for spot checks. -/
def testSettings : LocalSettings :=
  ⟨"127.0.0.1".toList, 6000, "elysia".toList, "ego".toList, none, none, none, none, none⟩

/-- C2: a descriptor with the valid scheme prefix and hostname
delimiter whose query carries user and passwd but omits the mandatory
port key makes from_url panic (the port unwrap on None at line 87 of
lib.rs) instead of returning a parse error. -/
theorem fromUrl_missing_port_panics :
    LocalSettings.from_url "bambu:///local/127.0.0.1.?user=elysia&passwd=ego".toList =
      .panicked := by decide

/-- C3 counterexample: the encoded control packet for a concrete
request is 80 bytes, not 72 as the claim states (four 4-byte command
words plus two 32-byte credential fields make 80). -/
theorem packet_len_is_80_not_72 :
    packetOutLen (CameraCmdPacket.new 0x3000 (strBytes "elysia".toList)
        (strBytes "ego".toList) true) = 80 ∧
    packetOutLen (CameraCmdPacket.new 0x3000 (strBytes "elysia".toList)
        (strBytes "ego".toList) true) ≠ 72 := by decide

/-- C3 amended: for every request type, credentials and start flag for
which encoding succeeds, the encoded control packet is exactly 80
bytes: four 32-bit command words (16 bytes) followed by a 32-byte
username field and a 32-byte password field. -/
theorem packet_encodes_to_80_bytes (rt : Int) (user pass : List Nat) (s : Bool)
    (p : CameraCmdPacket) (h : CameraCmdPacket.new rt user pass s = .built p) :
    p.as_bytes.length = 80 ∧ p.cmd.length = 4 ∧ p.user.length = 32 ∧ p.pass.length = 32 := by
  unfold CameraCmdPacket.new at h
  split at h
  · exact absurd h (by simp)
  · rename_i hlen
    push_neg at hlen
    injection h with h
    subst h
    simp [CameraCmdPacket.as_bytes, u32le]
    omega

/-- Spot instance of packet_encodes_to_80_bytes at empty credentials. -/
theorem packet_encodes_to_80_bytes_spot :
    (CameraCmdPacket.mk [0, 0, 0, 0] (List.replicate 32 0)
        (List.replicate 32 0)).as_bytes.length = 80 ∧
    (CameraCmdPacket.mk [0, 0, 0, 0] (List.replicate 32 0)
        (List.replicate 32 0)).cmd.length = 4 ∧
    (CameraCmdPacket.mk [0, 0, 0, 0] (List.replicate 32 0)
        (List.replicate 32 0)).user.length = 32 ∧
    (CameraCmdPacket.mk [0, 0, 0, 0] (List.replicate 32 0)
        (List.replicate 32 0)).pass.length = 32 :=
  packet_encodes_to_80_bytes 0 [] [] false
    ⟨[0, 0, 0, 0], List.replicate 32 0, List.replicate 32 0⟩ (by decide)

/-- C5 counterexample: a 33-byte username makes CameraCmdPacket::new
panic (out-of-bounds slice res.user[..user.len()]) instead of being
silently truncated. -/
theorem packet_new_long_credential_panics :
    CameraCmdPacket.new 0 (List.replicate 33 97) [] true = .panicked := by decide

/-- C5 amended: for credentials of at most 32 bytes, CameraCmdPacket::new
succeeds without panicking and writes them left-justified and
zero-padded into the 32-byte fields; longer credentials panic. -/
theorem packet_new_within_32_ok (rt : Int) (user pass : List Nat) (s : Bool)
    (hu : user.length ≤ 32) (hp : pass.length ≤ 32) :
    CameraCmdPacket.new rt user pass s =
      .built ⟨[if s then 0x40 else 0, (rt % 4294967296).toNat, 0, 0],
        user ++ List.replicate (32 - user.length) 0,
        pass ++ List.replicate (32 - pass.length) 0⟩ := by
  unfold CameraCmdPacket.new
  rw [if_neg]
  omega

/-- Spot instance of packet_new_within_32_ok at short credentials. -/
theorem packet_new_within_32_ok_spot :
    CameraCmdPacket.new 5 [1] [2, 3] true =
      .built ⟨[if true then 0x40 else 0, ((5 : Int) % 4294967296).toNat, 0, 0],
        [1] ++ List.replicate (32 - 1) 0,
        [2, 3] ++ List.replicate (32 - 2) 0⟩ :=
  packet_new_within_32_ok 5 [1] [2, 3] true (by decide) (by decide)

/-- C8: the control packet built for start with request type 0x3000,
username elysia and password ego has the 0x40 bit set in command word
0, command word 1 equal to 0x3000, the first 6 username-field bytes
equal to the ASCII bytes of elysia, and the remaining 26 bytes zero. -/
theorem start_packet_contents :
    (packetOutCmd (CameraCmdPacket.new 0x3000 (strBytes "elysia".toList)
        (strBytes "ego".toList) true)).getD 0 0 &&& 0x40 = 0x40 ∧
    (packetOutCmd (CameraCmdPacket.new 0x3000 (strBytes "elysia".toList)
        (strBytes "ego".toList) true)).getD 1 0 = 0x3000 ∧
    (packetOutUser (CameraCmdPacket.new 0x3000 (strBytes "elysia".toList)
        (strBytes "ego".toList) true)).take 6 = strBytes "elysia".toList ∧
    (packetOutUser (CameraCmdPacket.new 0x3000 (strBytes "elysia".toList)
        (strBytes "ego".toList) true)).drop 6 = List.replicate 26 0 := by decide

/-- C9 counterexample: destroy_buffer on a sample with negative size is
a no-op that leaves size negative, not zero. -/
theorem destroy_buffer_negative_size_not_zeroed :
    ((BambuSample.mk 0 (-1) 0 [] 0 0).destroy_buffer).1.size = -1 ∧
    ((BambuSample.mk 0 (-1) 0 [] 0 0).destroy_buffer).1.size ≠ 0 := by decide

/-- C9 amended: destroy_buffer is a no-op (releasing nothing) when
size is at most 0, leaves size zero whenever size was non-negative,
and a second call in succession never releases and changes nothing, so
the underlying allocation is released at most once. -/
theorem destroy_buffer_spec (s : BambuSample) :
    (s.size ≤ 0 → s.destroy_buffer = (s, false)) ∧
    (0 ≤ s.size → (s.destroy_buffer).1.size = 0) ∧
    ((s.destroy_buffer).1.destroy_buffer = ((s.destroy_buffer).1, false)) := by
  by_cases h : s.size ≤ 0 <;>
    (simp [BambuSample.destroy_buffer, h]; try omega)

/-- Spot instance of destroy_buffer_spec at a positive size. -/
theorem destroy_buffer_spec_spot :
    ((BambuSample.mk 1 7 2 [5] 1 3).destroy_buffer).1.size = 0 :=
  (destroy_buffer_spec ⟨1, 7, 2, [5], 1, 3⟩).2.1 (by decide)

/-- C7: start and close on a session whose connection is absent fail
with the sequencing error and perform no network action at all, and
read_sample on a session whose state is absent or Initial fails with
the sequencing error stream not started (when opened) or stream not
opened (when not even opened). -/
theorem lifecycle_sequencing_errors
    (t : LocalTunnel) (rt : Int) (net : NetInput) (sample : BambuSample) :
    (t.conn_opt = false →
      (t.start rt net).code = .errMsg "stream not opened" ∧
      (t.start rt net).actions = [] ∧
      (t.close net).code = .errMsg "stream not opened" ∧
      (t.close net).actions = [] ∧
      (t.read_sample sample net).code = .errMsg "stream not opened") ∧
    (t.conn_opt = true → (t.state_opt = none ∨ t.state_opt = some .Initial) →
      (t.read_sample sample net).code = .errMsg "stream not started") := by
  constructor
  · intro hc
    simp [LocalTunnel.start, LocalTunnel.close, LocalTunnel.read_sample, hc]
  · intro hc hs
    rcases hs with hs | hs <;> simp [LocalTunnel.read_sample, hc, hs]

/-- Spot instances of lifecycle_sequencing_errors: start before open,
and read_sample after open but before start. -/
theorem lifecycle_sequencing_errors_spot :
    ((LocalTunnel.mk testSettings false none none false).start 0
        ⟨.ok (), .ok (), []⟩).code = .errMsg "stream not opened" ∧
    ((LocalTunnel.mk testSettings true none (some .Initial) false).read_sample zeroSample
        ⟨.ok (), .ok (), []⟩).code = .errMsg "stream not started" :=
  ⟨((lifecycle_sequencing_errors ⟨testSettings, false, none, none, false⟩ 0
      ⟨.ok (), .ok (), []⟩ zeroSample).1 rfl).1,
    (lifecycle_sequencing_errors ⟨testSettings, true, none, some .Initial, false⟩ 0
      ⟨.ok (), .ok (), []⟩ zeroSample).2 rfl (Or.inr rfl)⟩

/-- C6: in state ReceivingSample with no bytes remaining, read_sample
succeeds, hands the pending data to the out-sample, and the backing
allocation of the delivered buffer has capacity equal to its length
(the delivered Vec is a clone, allocated at exactly the content
length), for every pending data value including the empty one. -/
theorem readSample_delivery_cap_eq_len
    (t : LocalTunnel) (sample : BambuSample) (net : NetInput)
    (h : CameraCmdFrameHeader) (v : RVec)
    (hconn : t.conn_opt = true)
    (hstate : t.state_opt = some (.ReceivingSample h v 0)) :
    (t.read_sample sample net).code = .success ∧
    (t.read_sample sample net).sample.bufCap =
      (t.read_sample sample net).sample.buffer.length ∧
    (t.read_sample sample net).sample.buffer = v.data ∧
    (t.read_sample sample net).tunnel.state_opt = some .ProcessStream := by
  simp [LocalTunnel.read_sample, hconn, hstate, BambuSample.set_buffer, RVec.clone]

/-- Spot instance of readSample_delivery_cap_eq_len at the empty frame
(length zero). -/
theorem readSample_delivery_cap_eq_len_spot :
    ((LocalTunnel.mk testSettings true (some 0x3000)
        (some (.ReceivingSample ⟨0, 0, 0, 0⟩ ⟨[], 0⟩ 0)) true).read_sample zeroSample
        ⟨.ok (), .ok (), []⟩).code = .success ∧
    ((LocalTunnel.mk testSettings true (some 0x3000)
        (some (.ReceivingSample ⟨0, 0, 0, 0⟩ ⟨[], 0⟩ 0)) true).read_sample zeroSample
        ⟨.ok (), .ok (), []⟩).sample.bufCap =
      ((LocalTunnel.mk testSettings true (some 0x3000)
        (some (.ReceivingSample ⟨0, 0, 0, 0⟩ ⟨[], 0⟩ 0)) true).read_sample zeroSample
        ⟨.ok (), .ok (), []⟩).sample.buffer.length ∧
    ((LocalTunnel.mk testSettings true (some 0x3000)
        (some (.ReceivingSample ⟨0, 0, 0, 0⟩ ⟨[], 0⟩ 0)) true).read_sample zeroSample
        ⟨.ok (), .ok (), []⟩).sample.buffer = RVec.data ⟨[], 0⟩ ∧
    ((LocalTunnel.mk testSettings true (some 0x3000)
        (some (.ReceivingSample ⟨0, 0, 0, 0⟩ ⟨[], 0⟩ 0)) true).read_sample zeroSample
        ⟨.ok (), .ok (), []⟩).tunnel.state_opt = some .ProcessStream :=
  readSample_delivery_cap_eq_len
    ⟨testSettings, true, some 0x3000, some (.ReceivingSample ⟨0, 0, 0, 0⟩ ⟨[], 0⟩ 0), true⟩
    zeroSample ⟨.ok (), .ok (), []⟩ ⟨0, 0, 0, 0⟩ ⟨[], 0⟩ rfl rfl

/-- Accounting of the chunked read loop: when it exits normally, the
bytes appended to the pending Vec together with the still-remaining
count add up to the initial remaining count. -/
theorem readLoop_finished_length (rs : List RRes) :
    ∀ (r : Nat) (v v' : RVec) (r' : Nat),
      readLoop r v rs = .finished v' r' →
        v'.data.length + r' = v.data.length + r := by
  induction rs with
  | nil =>
    intro r v v' r' h
    cases r with
    | zero =>
      simp only [readLoop, LoopOut.finished.injEq] at h
      obtain ⟨rfl, rfl⟩ := h
      omega
    | succ n => simp [readLoop] at h
  | cons head rest ih =>
    intro r v v' r' h
    cases r with
    | zero =>
      simp only [readLoop, LoopOut.finished.injEq] at h
      obtain ⟨rfl, rfl⟩ := h
      omega
    | succ n =>
      cases head with
      | rerr k => simp [readLoop] at h
      | bytes l =>
        rw [readLoop] at h
        by_cases hc : (l.take (min (n + 1) 4096)).length = 0
        · rw [if_pos hc] at h
          obtain ⟨rfl, rfl⟩ := LoopOut.finished.inj h
          omega
        · rw [if_neg hc] at h
          have hstep := ih (n + 1 - (l.take (min (n + 1) 4096)).length)
            (v.extendFromSlice (l.take (min (n + 1) 4096))) v' r' h
          have hle : (l.take (min (n + 1) 4096)).length ≤ n + 1 := by
            have := List.length_take_le (min (n + 1) 4096) l
            omega
          simp [RVec.extendFromSlice] at hstep
          omega

/-- Accounting of the chunked read loop when a read error stops it:
the bytes appended before the failing read together with the remaining
count still add up to the initial remaining count (the mutations made
before the error persist). -/
theorem readLoop_ioFail_length (rs : List RRes) :
    ∀ (r : Nat) (v : RVec) (k : IoErrKind) (v' : RVec) (r' : Nat),
      readLoop r v rs = .ioFail k v' r' →
        v'.data.length + r' = v.data.length + r := by
  induction rs with
  | nil =>
    intro r v k v' r' h
    cases r with
    | zero => simp [readLoop] at h
    | succ n =>
      simp only [readLoop, LoopOut.ioFail.injEq] at h
      obtain ⟨rfl, rfl, rfl⟩ := h
      omega
  | cons head rest ih =>
    intro r v k v' r' h
    cases r with
    | zero => simp [readLoop] at h
    | succ n =>
      cases head with
      | rerr k2 =>
        simp only [readLoop, LoopOut.ioFail.injEq] at h
        obtain ⟨rfl, rfl, rfl⟩ := h
        omega
      | bytes l =>
        rw [readLoop] at h
        by_cases hc : (l.take (min (n + 1) 4096)).length = 0
        · rw [if_pos hc] at h
          cases h
        · rw [if_neg hc] at h
          have hstep := ih (n + 1 - (l.take (min (n + 1) 4096)).length)
            (v.extendFromSlice (l.take (min (n + 1) 4096))) k v' r' h
          have hle : (l.take (min (n + 1) 4096)).length ≤ n + 1 := by
            have := List.length_take_le (min (n + 1) 4096) l
            omega
          simp [RVec.extendFromSlice] at hstep
          omega

/-- C1 counterexample: in state ReceivingSample with 5 bytes remaining,
a tick whose only read is a zero-byte read (clean EOF) makes
read_sample hit the assert that no bytes remain: a panic, not the
transient try-again condition. -/
theorem readSample_receiving_zero_read_panics :
    (LocalTunnel.read_sample ⟨testSettings, true, some 0x3000,
        some (.ReceivingSample ⟨5, 0, 0, 0⟩ ⟨[], 5⟩ 5), true⟩ zeroSample
        ⟨.ok (), .ok (), [.bytes []]⟩).code = .panicked ∧
    (LocalTunnel.read_sample ⟨testSettings, true, some 0x3000,
        some (.ReceivingSample ⟨5, 0, 0, 0⟩ ⟨[], 5⟩ 5), true⟩ zeroSample
        ⟨.ok (), .ok (), [.bytes []]⟩).code.isTransient = false := by decide

/-- C1 amended: in state ReceivingSample with bytes remaining, one
read_sample tick reads up to the remaining byte count in chunks of at
most 4096 bytes, appending each chunk to the pending buffer and
decrementing remaining; regardless of how much was read, the call
reports a transient result: the Interrupted try-again condition when
the tick drains remaining to zero, and the propagated would-block (or
interrupted) condition, which the shim equally classifies as
transient, when the reader has no more data this tick, with the
partial progress kept in state.  The one exception, forced by the
counterexample: a zero-byte read (clean EOF) while bytes remain fails
the assert and panics. -/
theorem readSample_receiving_tick
    (t : LocalTunnel) (sample : BambuSample) (net : NetInput)
    (h : CameraCmdFrameHeader) (v : RVec) (r : Nat)
    (hconn : t.conn_opt = true)
    (hstate : t.state_opt = some (.ReceivingSample h v (r + 1)))
    (hphase : net.phase = .ok ()) :
    (∀ v' : RVec, readLoop (r + 1) v net.reads = .finished v' 0 →
      (t.read_sample sample net).code = .tryAgain "next state (finishing)" ∧
      (t.read_sample sample net).code.isTransient = true ∧
      (t.read_sample sample net).tunnel.state_opt = some (.ReceivingSample h v' 0) ∧
      v'.data.length = v.data.length + (r + 1)) ∧
    (∀ (k : IoErrKind) (v' : RVec) (r' : Nat),
      readLoop (r + 1) v net.reads = .ioFail k v' r' →
      (t.read_sample sample net).code = .ioFail k ∧
      (t.read_sample sample net).tunnel.state_opt = some (.ReceivingSample h v' r') ∧
      v'.data.length + r' = v.data.length + (r + 1) ∧
      (k = .wouldBlock ∨ k = .interrupted →
        (t.read_sample sample net).code.isTransient = true)) ∧
    (∀ (v' : RVec) (r' : Nat), readLoop (r + 1) v net.reads = .finished v' (r' + 1) →
      (t.read_sample sample net).code = .panicked) := by
  refine ⟨?_, ?_, ?_⟩
  · intro v' hloop
    have hlen := readLoop_finished_length net.reads (r + 1) v v' 0 hloop
    refine ⟨?_, ?_, ?_, ?_⟩
    · simp [LocalTunnel.read_sample, hconn, hstate, hphase, hloop]
    · simp [LocalTunnel.read_sample, hconn, hstate, hphase, hloop, RSCode.isTransient]
    · simp [LocalTunnel.read_sample, hconn, hstate, hphase, hloop]
    · omega
  · intro k v' r' hloop
    have hlen := readLoop_ioFail_length net.reads (r + 1) v k v' r' hloop
    refine ⟨?_, ?_, ?_, ?_⟩
    · simp [LocalTunnel.read_sample, hconn, hstate, hphase, hloop]
    · simp [LocalTunnel.read_sample, hconn, hstate, hphase, hloop]
    · omega
    · intro hk
      rcases hk with rfl | rfl <;>
        simp [LocalTunnel.read_sample, hconn, hstate, hphase, hloop, RSCode.isTransient]
  · intro v' r' hloop
    simp [LocalTunnel.read_sample, hconn, hstate, hphase, hloop]

/-- Spot instances of readSample_receiving_tick: a tick of three
remaining bytes served by one three-byte read (drained, try-again),
and a tick of five remaining bytes served by one two-byte read before
the reader would block (partial progress kept, transient result). -/
theorem readSample_receiving_tick_spot :
    (LocalTunnel.read_sample ⟨testSettings, true, some 0x3000,
        some (.ReceivingSample ⟨3, 0, 0, 0⟩ ⟨[], 3⟩ 3), true⟩ zeroSample
        ⟨.ok (), .ok (), [.bytes [1, 2, 3]]⟩).code = .tryAgain "next state (finishing)" ∧
    (LocalTunnel.read_sample ⟨testSettings, true, some 0x3000,
        some (.ReceivingSample ⟨3, 0, 0, 0⟩ ⟨[], 3⟩ 3), true⟩ zeroSample
        ⟨.ok (), .ok (), [.bytes [1, 2, 3]]⟩).tunnel.state_opt =
      some (.ReceivingSample ⟨3, 0, 0, 0⟩ ⟨[1, 2, 3], 3⟩ 0) ∧
    (LocalTunnel.read_sample ⟨testSettings, true, some 0x3000,
        some (.ReceivingSample ⟨5, 0, 0, 0⟩ ⟨[], 5⟩ 5), true⟩ zeroSample
        ⟨.ok (), .ok (), [.bytes [1, 2]]⟩).code = .ioFail .wouldBlock ∧
    (LocalTunnel.read_sample ⟨testSettings, true, some 0x3000,
        some (.ReceivingSample ⟨5, 0, 0, 0⟩ ⟨[], 5⟩ 5), true⟩ zeroSample
        ⟨.ok (), .ok (), [.bytes [1, 2]]⟩).tunnel.state_opt =
      some (.ReceivingSample ⟨5, 0, 0, 0⟩ ⟨[1, 2], 5⟩ 3) ∧
    (LocalTunnel.read_sample ⟨testSettings, true, some 0x3000,
        some (.ReceivingSample ⟨5, 0, 0, 0⟩ ⟨[], 5⟩ 5), true⟩ zeroSample
        ⟨.ok (), .ok (), [.bytes [1, 2]]⟩).code.isTransient = true := by
  have h1 := (readSample_receiving_tick
    ⟨testSettings, true, some 0x3000, some (.ReceivingSample ⟨3, 0, 0, 0⟩ ⟨[], 3⟩ 3), true⟩
    zeroSample ⟨.ok (), .ok (), [.bytes [1, 2, 3]]⟩
    ⟨3, 0, 0, 0⟩ ⟨[], 3⟩ 2 rfl rfl rfl).1 ⟨[1, 2, 3], 3⟩ (by decide)
  have h2 := (readSample_receiving_tick
    ⟨testSettings, true, some 0x3000, some (.ReceivingSample ⟨5, 0, 0, 0⟩ ⟨[], 5⟩ 5), true⟩
    zeroSample ⟨.ok (), .ok (), [.bytes [1, 2]]⟩
    ⟨5, 0, 0, 0⟩ ⟨[], 5⟩ 4 rfl rfl rfl).2.1 .wouldBlock ⟨[1, 2], 5⟩ 3 (by decide)
  exact ⟨h1.1, h1.2.2.1, h2.1, h2.2.1, h2.2.2.2 (Or.inl rfl)⟩

/-- C4 counterexample: a completed header declaring frame length 4
moves read_sample to ReceivingSample with remaining 8, not 4: the
remaining count is taken from the capacity of the reserved Vec, and
the allocator never produces a non-zero byte capacity below 8. -/
theorem readSample_header_small_frame_remaining_eight :
    (LocalTunnel.read_sample ⟨testSettings, true, some 0x3000, some .ProcessStream, true⟩
        zeroSample ⟨.ok (), .ok (),
        [.bytes [4, 0, 0, 0, 1, 0, 0, 0, 2, 0, 0, 0, 0, 0, 0, 0]]⟩).tunnel.state_opt =
      some (.ReceivingSample ⟨4, 1, 2, 0⟩ ⟨[], 8⟩ 8) ∧
    (headerFrom [4, 0, 0, 0, 1, 0, 0, 0, 2, 0, 0, 0, 0, 0, 0, 0]).frame_len = 4 ∧
    vecReserveCap 0 0 4 ≠ 4 := by decide

/-- C4 amended: in state ProcessStream, when the full 16-byte header
becomes available within the tick, read_sample decodes it, reserves a
pending buffer for the frame length, moves to ReceivingSample with
empty data and remaining equal to the capacity of that buffer, and
still returns the transient try-again condition; the capacity (hence
remaining) equals the decoded frame length exactly when that length is
zero or at least 8. -/
theorem readSample_header_transition
    (t : LocalTunnel) (sample : BambuSample) (net : NetInput)
    (raw : List Nat) (rest : List RRes)
    (hconn : t.conn_opt = true)
    (hstate : t.state_opt = some .ProcessStream)
    (hphase : net.phase = .ok ())
    (hread : readExactAux [] 16 net.reads = .ok (raw, rest)) :
    (t.read_sample sample net).code = .tryAgain "next state (receiving)" ∧
    (t.read_sample sample net).tunnel.state_opt =
      some (.ReceivingSample (headerFrom raw)
        ⟨[], vecReserveCap 0 0 (headerFrom raw).frame_len⟩
        (vecReserveCap 0 0 (headerFrom raw).frame_len)) ∧
    ((headerFrom raw).frame_len = 0 ∨ 8 ≤ (headerFrom raw).frame_len →
      vecReserveCap 0 0 (headerFrom raw).frame_len = (headerFrom raw).frame_len) := by
  refine ⟨?_, ?_, ?_⟩
  · simp [LocalTunnel.read_sample, hconn, hstate, hphase, hread]
  · simp [LocalTunnel.read_sample, hconn, hstate, hphase, hread, RVec.reserve]
  · intro hfl
    unfold vecReserveCap
    split <;> omega

/-- Spot instance of readSample_header_transition at an all-zero
header (frame length zero). -/
theorem readSample_header_transition_spot :
    (LocalTunnel.read_sample ⟨testSettings, true, some 0x3000, some .ProcessStream, true⟩
        zeroSample ⟨.ok (), .ok (), [.bytes (List.replicate 16 0)]⟩).code =
      .tryAgain "next state (receiving)" ∧
    (LocalTunnel.read_sample ⟨testSettings, true, some 0x3000, some .ProcessStream, true⟩
        zeroSample ⟨.ok (), .ok (), [.bytes (List.replicate 16 0)]⟩).tunnel.state_opt =
      some (.ReceivingSample (headerFrom (List.replicate 16 0))
        ⟨[], vecReserveCap 0 0 (headerFrom (List.replicate 16 0)).frame_len⟩
        (vecReserveCap 0 0 (headerFrom (List.replicate 16 0)).frame_len)) ∧
    ((headerFrom (List.replicate 16 0)).frame_len = 0 ∨
        8 ≤ (headerFrom (List.replicate 16 0)).frame_len →
      vecReserveCap 0 0 (headerFrom (List.replicate 16 0)).frame_len =
        (headerFrom (List.replicate 16 0)).frame_len) :=
  readSample_header_transition
    ⟨testSettings, true, some 0x3000, some .ProcessStream, true⟩
    zeroSample ⟨.ok (), .ok (), [.bytes (List.replicate 16 0)]⟩
    (List.replicate 16 0) [] rfl rfl rfl rfl

/-- A segment with no value makes the segment step panic (the unwrap of
the missing part after the equals sign). -/
theorem procSeg_valPanic (acc : QueryAcc) (seg : List Char) (h : segVal seg = none) :
    procSeg acc seg = .valPanic := by
  simp [procSeg, h]

/-- A segment with a value and no unparsable port value advances the
accumulator. -/
theorem procSeg_updated (acc : QueryAcc) (seg : List Char) (v : List Char)
    (hv : segVal seg = some v) (hok : segPortOk seg = true) :
    ∃ acc2, procSeg acc seg = .updated acc2 := by
  simp only [segPortOk, hv] at hok
  simp only [procSeg, hv]
  split_ifs with h1 h2 h3 h4 h5 h6 h7 h8
  all_goals try exact ⟨_, rfl⟩
  rw [if_pos h8] at hok
  cases hp : parseU16 v with
  | none => rw [hp] at hok; simp at hok
  | some p => exact ⟨{ acc with port := some p }, by simp [hp]⟩

/-- When some segment of the query has no value and no earlier segment
carries an unparsable port value, the query loop panics. -/
theorem procSegs_bare_panics (hostname : List Char) :
    ∀ (segs : List (List Char)) (acc : QueryAcc),
      (∃ seg ∈ segs, segVal seg = none) →
      (∀ seg ∈ segs, segPortOk seg = true) →
      procSegs hostname acc segs = .panicked := by
  intro segs
  induction segs with
  | nil =>
    intro acc hex _
    simp at hex
  | cons seg rest ih =>
    intro acc hex hok
    cases hsv : segVal seg with
    | none => simp [procSegs, procSeg_valPanic acc seg hsv]
    | some v =>
      obtain ⟨acc2, hacc⟩ :=
        procSeg_updated acc seg v hsv (hok seg (List.mem_cons_self seg rest))
      have hex2 : ∃ s ∈ rest, segVal s = none := by
        rcases hex with ⟨s, hs, hnone⟩
        rcases List.mem_cons.mp hs with rfl | hs
        · rw [hsv] at hnone; cases hnone
        · exact ⟨s, hs, hnone⟩
      rw [procSegs, hacc]
      exact ih acc2 hex2 (fun s hs => hok s (List.mem_cons_of_mem seg hs))

/-- The first occurrence of the hostname delimiter in the
concatenation of a delimiter-free hostname, the delimiter, and the
query is at the length of the hostname. -/
theorem findDotQ_append (q : List Char) :
    ∀ host : List Char, findDotQ host = none →
      findDotQ (host ++ '.' :: '?' :: q) = some host.length := by
  intro host
  induction host with
  | nil =>
    intro _
    simp [findDotQ]
  | cons c hs ih =>
    intro h
    rw [findDotQ.eq_2] at h
    rw [List.cons_append, findDotQ.eq_2]
    have hcnd : ¬ (c = '.' ∧ hs.headD ' ' = '?') := by
      intro hcnd
      rw [if_pos hcnd] at h
      cases h
    rw [if_neg hcnd] at h
    have hnone : findDotQ hs = none := by
      cases hfd : findDotQ hs with
      | none => rfl
      | some k => rw [hfd] at h; simp at h
    have hcnd2 : ¬ (c = '.' ∧ (hs ++ '.' :: '?' :: q).headD ' ' = '?') := by
      cases hs with
      | nil => simp
      | cons d tl => simpa using hcnd
    rw [if_neg hcnd2, ih hnone]
    simp

/-- Dropping the hostname and the two delimiter characters leaves the
query. -/
theorem drop_host_delim (host q : List Char) :
    (host ++ '.' :: '?' :: q).drop (host.length + 2) = q := by
  have h : host ++ '.' :: '?' :: q = (host ++ ['.', '?']) ++ q := by simp
  rw [h]
  exact List.drop_left' (by simp)

/-- C10 counterexample: a query whose port value fails to parse before
its bare (equals-sign-free) segment is reached returns the propagated
parse error, so not every such descriptor panics. -/
theorem fromUrl_bad_port_before_bare_segment_no_panic :
    LocalSettings.from_url "bambu:///local/h.?port=x&foo".toList = .failed "invalid port" ∧
    (splitOnChar '&' "port=x&foo".toList).any (fun seg => (segVal seg).isNone) = true ∧
    LocalSettings.from_url "bambu:///local/h.?port=x&foo".toList ≠ .panicked := by decide

/-- C10 amended: for every descriptor assembled from the scheme
prefix, a delimiter-free hostname, the delimiter, and a query that
contains a segment without an equals sign, from_url panics (the unwrap
of the missing value), provided no segment carries an unparsable port
value (such a segment would make from_url return a parse error as soon
as it is processed). -/
theorem fromUrl_bare_segment_panics (host query : List Char)
    (hhost : findDotQ host = none)
    (hbare : ∃ seg ∈ splitOnChar '&' query, segVal seg = none)
    (hok : ∀ seg ∈ splitOnChar '&' query, segPortOk seg = true) :
    LocalSettings.from_url (SCHEMA_START ++ (host ++ '.' :: '?' :: query)) = .panicked := by
  unfold LocalSettings.from_url
  rw [if_neg (by simp)]
  simp only []
  rw [List.drop_left]
  rw [findDotQ_append query host hhost]
  simp only [List.take_left, drop_host_delim]
  exact procSegs_bare_panics host (splitOnChar '&' query) QueryAcc.init hbare hok

/-- Spot instance of fromUrl_bare_segment_panics: hostname h, query
consisting of the single bare segment foo. -/
theorem fromUrl_bare_segment_panics_spot :
    LocalSettings.from_url (SCHEMA_START ++ ("h".toList ++ '.' :: '?' :: "foo".toList)) =
      .panicked :=
  fromUrl_bare_segment_panics "h".toList "foo".toList (by decide)
    ⟨"foo".toList, by decide, by decide⟩ (by decide)

end Turion
